import Mathlib

/-!
Verification development for `fastapi_simple_security`.

The repository exposes four administrative HTTP endpoints
(`src/fastapi_simple_security/endpoints.py`): `/new`, `/revoke`, `/renew`
and `/logs`, all registered on `api_key_router` with a
`Depends(secret_based_security)` dependency and an `include_in_schema`
flag computed from the `FASTAPI_SIMPLE_SECURITY_HIDE_DOCS` environment
variable.  The key store itself (`sqlite_access`) and the secret gate
(`secret_based_security`) are imported from modules that are not part of
the provided sources, so those operations are modelled from the spec
(sections 4.1 to 4.6); the endpoint layer is translated directly from
`endpoints.py`.
-/

namespace FastapiSimpleSecurity

/-- A calendar date used to model "the current moment" and the ISO dates the
store keeps.  The spec describes `expirationDate` as an ISO 8601 string, so
dates are kept as strings in the store and this structure is only used to
compute the default expiration offset. -/
structure IsoDate where
  year : Nat
  month : Nat
  day : Nat
deriving Repr, DecidableEq

/-- Left-pad the decimal representation of a number to two digits. -/
def pad2 (n : Nat) : String :=
  if n < 10 then "0" ++ Nat.repr n else Nat.repr n

/-- Left-pad the decimal representation of a number to four digits. -/
def pad4 (n : Nat) : String :=
  if n < 10 then "000" ++ Nat.repr n
  else if n < 100 then "00" ++ Nat.repr n
  else if n < 1000 then "0" ++ Nat.repr n
  else Nat.repr n

/-- Render a date as an ISO 8601 `YYYY-MM-DD` string. -/
def format_iso_date (d : IsoDate) : String :=
  pad4 d.year ++ "-" ++ pad2 d.month ++ "-" ++ pad2 d.day

/-- Decide whether a character is a decimal digit. -/
def is_digit_char (c : Char) : Bool :=
  ('0' ≤ c) && (c ≤ '9')

/-- Modelled from the spec: the validation applied to the optional
`expiration_date` input of the renew operation (`sqlite_access.renew_key`
is not in the provided sources).  A well-formed input is an ISO 8601
`YYYY-MM-DD` date string; anything else is "malformed date input"
(spec section 4.4). -/
def is_valid_iso_date (s : String) : Bool :=
  match s.data with
  | [y1, y2, y3, y4, '-', m1, m2, '-', d1, d2] =>
    is_digit_char y1 && is_digit_char y2 && is_digit_char y3 && is_digit_char y4 &&
    is_digit_char m1 && is_digit_char m2 && is_digit_char d1 && is_digit_char d2
  | _ => false

/-- Validity of the optional `expiration_date` query parameter: an omitted
date is always acceptable, a supplied one must be a well-formed ISO date. -/
def valid_opt_date (d : Option String) : Bool :=
  match d with
  | none => true
  | some x => is_valid_iso_date x

/-- Modelled from the spec: the default expiration date the store computes
"as an offset from the creation moment, policy-configurable"
(spec section 4.2); not in the provided sources.  The policy modelled here
extends the key by one year. -/
def default_expiration (now : IsoDate) : String :=
  format_iso_date { now with year := now.year + 1 }

/-- One row of the key table, following the data model of spec section 3 and
the column order `row[0] .. row[6]` used by `get_api_key_usage_logs` in
`endpoints.py`. -/
structure ApiKeyRecord where
  key : String
  is_active : Bool
  never_expire : Bool
  account_name : String
  expiration_date : String
  latest_query_date : Option String
  total_queries : Nat
deriving Repr, DecidableEq

/-- The persistent state of the key store: the table of records plus a nonce
feeding the opaque-token generator (the deterministic stand-in for the
cryptographically random, collision-free key generation of
spec section 4.2). -/
structure StoreState where
  records : List ApiKeyRecord
  nextNonce : Nat
deriving Repr, DecidableEq

/-- Modelled from the spec: the opaque unique token generator of
`sqlite_access.create_key` (spec section 4.2, "generates a new unique opaque
token ... collision probability negligible").  Randomness is modelled by a
nonce; distinct nonces yield distinct tokens. -/
def gen_key (n : Nat) : String :=
  String.mk (List.replicate (n + 1) 'k')

/-- Modelled from the spec: `sqlite_access.create_key` (spec section 4.2),
not in the provided sources.  Generates a fresh opaque key, inserts a record
with `isActive = true`, counters at zero, `latestQueryDate = null` and a
default expiration date computed from the creation moment, and returns the
generated key string. -/
def create_key (s : StoreState) (never_expires : Bool) (account_name : String)
    (now : IsoDate) : String × StoreState :=
  let k := gen_key s.nextNonce
  (k, { records := s.records ++
          [{ key := k, is_active := true, never_expire := never_expires,
             account_name := account_name,
             expiration_date := default_expiration now,
             latest_query_date := none, total_queries := 0 }],
        nextNonce := s.nextNonce + 1 })

/-- Modelled from the spec: `sqlite_access.revoke_key` (spec section 4.3),
not in the provided sources.  If the key exists its `isActive` flag is set
to `false`; the operation is total (it "succeeds silently", reporting no
error, matching the minimal source behavior the spec mentions). -/
def revoke_key (s : StoreState) (api_key : String) : StoreState :=
  { s with records := s.records.map (fun r =>
      if r.key = api_key then { r with is_active := false } else r) }

/-- The error taxonomy of spec section 7 restricted to the administrative
surface. -/
inductive ApiError where
  | authorizationDenied
  | notFound
  | validationError
deriving Repr, DecidableEq

/-- Does the store contain a record for this key? -/
def key_exists (s : StoreState) (api_key : String) : Bool :=
  s.records.any (fun r => r.key == api_key)

/-- Modelled from the spec: `sqlite_access.renew_key` (spec section 4.4),
not in the provided sources.  A malformed supplied date is rejected with a
validation error before any mutation; an unknown key yields a not-found
signal; otherwise the record is reactivated (`isActive = true`) and its
expiration date is overwritten with the supplied date, or with a freshly
computed default when the date is omitted. -/
def renew_key (s : StoreState) (api_key : String) (expiration_date : Option String)
    (now : IsoDate) : Except ApiError StoreState :=
  if valid_opt_date expiration_date then
    if key_exists s api_key then
      let new_date := expiration_date.getD (default_expiration now)
      .ok { s with records := s.records.map (fun r =>
              if r.key = api_key then
                { r with is_active := true, expiration_date := new_date }
              else r) }
    else .error .notFound
  else .error .validationError

/-- A raw row as returned by the sqlite query behind
`sqlite_access.get_usage_stats`: every column is nullable at the database
level, in the positional order `row[0] .. row[6]` consumed by
`get_api_key_usage_logs`. -/
structure RawRow where
  api_key : Option String
  is_active : Option Bool
  never_expire : Option Bool
  account_name : Option String
  expiration_date : Option String
  latest_query_date : Option String
  total_queries : Option Nat
deriving Repr, DecidableEq

/-- Modelled from the spec: `sqlite_access.get_usage_stats`
(spec section 4.6), not in the provided sources.  Returns one raw row per
stored record, in store order, with no pagination or filtering. -/
def get_usage_stats (s : StoreState) : List RawRow :=
  s.records.map (fun r =>
    { api_key := some r.key, is_active := some r.is_active,
      never_expire := some r.never_expire, account_name := some r.account_name,
      expiration_date := some r.expiration_date,
      latest_query_date := r.latest_query_date,
      total_queries := some r.total_queries })

/-- The `UsageLog` pydantic model of `endpoints.py`: every field is required
except `latest_query_date`, which is `Optional[str]`. -/
structure UsageLog where
  api_key : String
  is_active : Bool
  never_expire : Bool
  account_name : String
  expiration_date : String
  latest_query_date : Option String
  total_queries : Nat
deriving Repr, DecidableEq

/-- The `UsageLogs` pydantic model of `endpoints.py`. -/
structure UsageLogs where
  logs : List UsageLog
deriving Repr, DecidableEq

/-- Pydantic validation of one `UsageLog` instance, as performed by the
`UsageLog(api_key=row[0], ...)` constructor call in `endpoints.py`: a null
value in any field other than `latest_query_date` raises a validation
error. -/
def mkUsageLog (row : RawRow) : Except String UsageLog :=
  match row.api_key, row.is_active, row.never_expire, row.account_name,
        row.expiration_date, row.total_queries with
  | some k, some a, some ne, some an, some ed, some tq =>
    .ok { api_key := k, is_active := a, never_expire := ne, account_name := an,
          expiration_date := ed, latest_query_date := row.latest_query_date,
          total_queries := tq }
  | _, _, _, _, _, _ => .error "UsageLog validation error"

/-- The list comprehension of `get_api_key_usage_logs`: build one `UsageLog`
per raw row, failing on the first row that does not validate. -/
def build_logs : List RawRow → Except String (List UsageLog)
  | [] => .ok []
  | row :: rest =>
    match mkUsageLog row with
    | .ok l =>
      match build_logs rest with
      | .ok ls => .ok (l :: ls)
      | .error e => .error e
    | .error e => .error e

/-- The `/logs` handler `get_api_key_usage_logs` of `endpoints.py`: wraps
one `UsageLog` per row of `sqlite_access.get_usage_stats()` in a
`UsageLogs` response. -/
def get_api_key_usage_logs (s : StoreState) : Except String UsageLogs :=
  match build_logs (get_usage_stats s) with
  | .ok ls => .ok { logs := ls }
  | .error e => .error e

/-- The `/new` handler `get_new_api_key` of `endpoints.py`: the `Query`
defaults substitute `false` for an omitted `never_expires` and
`"Not Provided"` for an omitted `account_name`, and the handler returns
`sqlite_access.create_key(never_expires, account_name)` unchanged. -/
def get_new_api_key (never_expires : Option Bool) (account_name : Option String)
    (now : IsoDate) (s : StoreState) : String × StoreState :=
  create_key s (never_expires.getD false) (account_name.getD "Not Provided") now

/-- The `/revoke` handler `revoke_api_key` of `endpoints.py`: returns
`sqlite_access.revoke_key(api_key)` unchanged. -/
def revoke_api_key (api_key : String) (s : StoreState) : StoreState :=
  revoke_key s api_key

/-- The `/renew` handler `renew_api_key` of `endpoints.py`: returns
`sqlite_access.renew_key(api_key, expiration_date)` unchanged; the
`expiration_date` query parameter defaults to null. -/
def renew_api_key (api_key : String) (expiration_date : Option String)
    (now : IsoDate) (s : StoreState) : Except ApiError StoreState :=
  renew_key s api_key expiration_date now

/-- Modelled from the spec: `secret_based_security` (spec section 4.1), not
in the provided sources.  A pure predicate gate: the presented credential
must exactly match the configured secret; a missing credential is
rejected. -/
def secret_based_security (configured_secret : String)
    (credential : Option String) : Bool :=
  match credential with
  | some c => c == configured_secret
  | none => false

/-- One incoming administrative request: exactly the four routes registered
on `api_key_router` in `endpoints.py`, with their query parameters
(an omitted optional parameter is `none`). -/
inductive AdminRequest where
  | newReq (never_expires : Option Bool) (account_name : Option String)
  | revokeReq (api_key : String)
  | renewReq (api_key : String) (expiration_date : Option String)
  | logsReq
deriving Repr, DecidableEq

/-- The serialized response of an administrative request. -/
inductive AdminResponse where
  | created (api_key : String)
  | ack
  | usage (logs : List UsageLog)
  | failure (e : ApiError)
deriving Repr, DecidableEq

/-- Dispatch of one administrative request, following `endpoints.py`: every
route carries `dependencies=[Depends(secret_based_security)]`, so the secret
gate runs before the handler; when the gate rejects, the request fails with
an authorization-denied error and the handler is never entered (the store
state is returned unchanged). -/
def handle_request (secret : String) (cred : Option String) (now : IsoDate)
    (req : AdminRequest) (s : StoreState) : AdminResponse × StoreState :=
  if secret_based_security secret cred then
    match req with
    | .newReq ne an =>
      let p := get_new_api_key ne an now s
      (.created p.1, p.2)
    | .revokeReq k => (.ack, revoke_api_key k s)
    | .renewReq k d =>
      match renew_api_key k d now s with
      | .ok s2 => (.ack, s2)
      | .error e => (.failure e, s)
    | .logsReq =>
      match get_api_key_usage_logs s with
      | .ok ul => (.usage ul.logs, s)
      | .error _ => (.failure .validationError, s)
  else (.failure .authorizationDenied, s)

/-- The name of the docs-visibility environment variable checked at module
load time in `endpoints.py`. -/
def hide_docs_env_var : String := "FASTAPI_SIMPLE_SECURITY_HIDE_DOCS"

/-- Membership test of a name in the process environment, modelled as an
association list (`"NAME" in os.environ`). -/
def env_has (env : List (String × String)) (name : String) : Bool :=
  env.any (fun p => p.1 == name)

/-- Line 12 of `endpoints.py`:
`show_endpoints = False if "FASTAPI_SIMPLE_SECURITY_HIDE_DOCS" in os.environ else True`.
Only the presence of the variable is consulted, never its value. -/
def show_endpoints (env : List (String × String)) : Bool :=
  if env_has env hide_docs_env_var then false else true

/-- One route registration on the router: its path and its
`include_in_schema` flag. -/
structure RouteSpec where
  path : String
  include_in_schema : Bool
deriving Repr, DecidableEq

/-- The `api_key_router` registrations of `endpoints.py`: the four routes,
each registered with `include_in_schema=show_endpoints`. -/
def api_key_router (env : List (String × String)) : List RouteSpec :=
  [{ path := "/new", include_in_schema := show_endpoints env },
   { path := "/revoke", include_in_schema := show_endpoints env },
   { path := "/renew", include_in_schema := show_endpoints env },
   { path := "/logs", include_in_schema := show_endpoints env }]

/-- The observable behavior of the app as a function of the process
environment.  In `endpoints.py` the value `show_endpoints` computed from the
environment flows only into the `include_in_schema` flags of
`api_key_router`; no handler body mentions it, so request handling does not
depend on the environment. -/
def app_behavior (_env : List (String × String)) (secret : String)
    (cred : Option String) (now : IsoDate) (req : AdminRequest)
    (s : StoreState) : AdminResponse × StoreState :=
  handle_request secret cred now req s

/-- All keys stored in the table are pairwise distinct
(spec section 3 invariant). -/
def keys_unique (s : StoreState) : Prop :=
  (s.records.map (fun r => r.key)).Nodup

/-- The store invariant maintained by the operations: keys are unique and
every stored key was produced by the generator at a nonce below the next
free one. -/
def store_inv (s : StoreState) : Prop :=
  keys_unique s ∧ ∀ r ∈ s.records, ∃ m, m < s.nextNonce ∧ r.key = gen_key m

/-- Run a finite sequence of `createKey` calls, returning the list of keys
handed back to the callers together with the final store state.  Each call
supplies its own `never_expires`, `account_name` and creation moment. -/
def run_creates (s : StoreState) : List (Bool × String × IsoDate) → List String × StoreState
  | [] => ([], s)
  | c :: cs =>
    let p := create_key s c.1 c.2.1 c.2.2
    let q := run_creates p.2 cs
    (p.1 :: q.1, q.2)

/-- All required (non-`Optional`) fields of the `UsageLog` model are present
in a raw row; `latest_query_date` is deliberately absent from this check. -/
def required_fields_present (row : RawRow) : Bool :=
  row.api_key.isSome && row.is_active.isSome && row.never_expire.isSome &&
  row.account_name.isSome && row.expiration_date.isSome && row.total_queries.isSome

/-! ## Theorems -/

/-- C1: every administrative endpoint (`/new`, `/revoke`, `/renew`, `/logs`)
runs its Key Store operation only after the Secret Gate has accepted the
request credential; a missing or mismatched credential yields an
authorization-denied rejection, the store state is returned unchanged and
the downstream operation is never entered. -/
theorem secret_gate_guards_all_admin_endpoints
    (secret : String) (cred : Option String) (now : IsoDate)
    (req : AdminRequest) (s : StoreState)
    (hdenied : cred = none ∨ ∀ c, cred = some c → c ≠ secret) :
    handle_request secret cred now req s = (.failure .authorizationDenied, s) := by
  have hfalse : secret_based_security secret cred = false := by
    cases cred with
    | none => rfl
    | some c =>
      rcases hdenied with h | h
      · exact absurd h (by simp)
      · have hc := h c rfl
        simp [secret_based_security, hc]
  simp [handle_request, hfalse]

/-- Witness for C1: a concrete mismatched credential is rejected with no
change to a concrete store. -/
theorem secret_gate_guards_all_admin_endpoints_witness :
    handle_request "s3cret" (some "wrong") { year := 2026, month := 1, day := 1 }
        (.revokeReq "k") { records := [], nextNonce := 0 } =
      (.failure .authorizationDenied, { records := [], nextNonce := 0 }) :=
  secret_gate_guards_all_admin_endpoints "s3cret" (some "wrong")
    { year := 2026, month := 1, day := 1 } (.revokeReq "k")
    { records := [], nextNonce := 0 }
    (Or.inr (fun c hc => by injection hc with h; subst h; decide))

/-- C3: the `/new` endpoint substitutes `false` and `"Not Provided"` for
omitted parameters, delegates to the store's create operation unchanged, and
hands the generated key string back to the caller; the key is the one
recorded in the freshly inserted row. -/
theorem new_endpoint_defaults_and_returns_created_key
    (never_expires : Option Bool) (account_name : Option String)
    (now : IsoDate) (s : StoreState) :
    get_new_api_key none none now s = create_key s false "Not Provided" now ∧
    get_new_api_key never_expires account_name now s =
      create_key s (never_expires.getD false) (account_name.getD "Not Provided") now ∧
    (get_new_api_key never_expires account_name now s).1 = gen_key s.nextNonce ∧
    (get_new_api_key never_expires account_name now s).1 ∈
      ((get_new_api_key never_expires account_name now s).2.records.map
        (fun r => r.key)) := by
  refine ⟨rfl, rfl, rfl, ?_⟩
  simp [get_new_api_key, create_key]

/-- C6: revoking is idempotent: revoking the same key twice leaves exactly
the state of the first revoke, and after a revoke every record carrying the
key is inactive; the operation is total (an already-revoked key is revoked
again silently, with no error). -/
theorem revoke_idempotent_and_deactivates (s : StoreState) (api_key : String) :
    revoke_key (revoke_key s api_key) api_key = revoke_key s api_key ∧
    ((revoke_key s api_key).records.all
      (fun r => !(r.key == api_key) || (r.is_active == false))) = true := by
  constructor
  · have hf : ((fun r : ApiKeyRecord =>
        if r.key = api_key then { r with is_active := false } else r) ∘
        (fun r : ApiKeyRecord =>
        if r.key = api_key then { r with is_active := false } else r)) =
        (fun r : ApiKeyRecord =>
        if r.key = api_key then { r with is_active := false } else r) := by
      funext r
      by_cases h : r.key = api_key <;> simp [Function.comp, h]
    simp [revoke_key, List.map_map, hf]
  · rw [List.all_eq_true]
    intro r hr
    simp only [revoke_key, List.mem_map] at hr
    obtain ⟨x, hx, rfl⟩ := hr
    by_cases h : x.key = api_key <;> simp [h]

/-- C8: the response and resulting store state of every administrative
request are identical for every process environment: the docs-visibility
variable flows only into the `include_in_schema` flags of `api_key_router`,
never into request handling. -/
theorem hide_docs_toggle_does_not_affect_behavior
    (env env2 : List (String × String)) (secret : String) (cred : Option String)
    (now : IsoDate) (req : AdminRequest) (s : StoreState) :
    app_behavior env secret cred now req s =
      app_behavior env2 secret cred now req s := rfl

/-- C10: documentation visibility is decided solely by the presence of
`FASTAPI_SIMPLE_SECURITY_HIDE_DOCS` in the environment, never by its value:
with the variable present under any value (the empty string included) the
endpoints are hidden, and they are shown exactly when it is absent. -/
theorem show_endpoints_depends_only_on_presence
    (env : List (String × String)) (v : String) :
    (env_has env hide_docs_env_var = true → show_endpoints env = false) ∧
    (env_has env hide_docs_env_var = false → show_endpoints env = true) ∧
    show_endpoints [(hide_docs_env_var, v)] = false ∧
    show_endpoints ((hide_docs_env_var, v) :: env) = false := by
  refine ⟨fun h => ?_, fun h => ?_, ?_, ?_⟩
  · simp [show_endpoints, h]
  · simp [show_endpoints, h]
  · simp [show_endpoints, env_has]
  · simp [show_endpoints, env_has]

/-- Witness for C10: concrete environments holding the variable with the
values `""`, `"0"` and `"false"` all hide the endpoints; the empty
environment shows them. -/
theorem show_endpoints_depends_only_on_presence_witness :
    show_endpoints [("FASTAPI_SIMPLE_SECURITY_HIDE_DOCS", "")] = false ∧
    show_endpoints [("FASTAPI_SIMPLE_SECURITY_HIDE_DOCS", "0")] = false ∧
    show_endpoints [("FASTAPI_SIMPLE_SECURITY_HIDE_DOCS", "false")] = false ∧
    show_endpoints [] = true :=
  ⟨(show_endpoints_depends_only_on_presence
      [("FASTAPI_SIMPLE_SECURITY_HIDE_DOCS", "")] "x").1 (by decide),
   (show_endpoints_depends_only_on_presence
      [("FASTAPI_SIMPLE_SECURITY_HIDE_DOCS", "0")] "x").1 (by decide),
   (show_endpoints_depends_only_on_presence
      [("FASTAPI_SIMPLE_SECURITY_HIDE_DOCS", "false")] "x").1 (by decide),
   (show_endpoints_depends_only_on_presence [] "x").2.1 (by decide)⟩

/-- C2: for every store state, `/logs` succeeds and returns one
usage-summary record per stored row, in store order, each record carrying
exactly the seven fields of the corresponding row. -/
theorem usage_logs_project_every_record (s : StoreState) :
    get_api_key_usage_logs s =
      .ok { logs := s.records.map (fun r =>
        { api_key := r.key, is_active := r.is_active,
          never_expire := r.never_expire, account_name := r.account_name,
          expiration_date := r.expiration_date,
          latest_query_date := r.latest_query_date,
          total_queries := r.total_queries }) } := by
  have key : ∀ l : List ApiKeyRecord,
      build_logs (l.map (fun r =>
        ({ api_key := some r.key, is_active := some r.is_active,
           never_expire := some r.never_expire,
           account_name := some r.account_name,
           expiration_date := some r.expiration_date,
           latest_query_date := r.latest_query_date,
           total_queries := some r.total_queries } : RawRow))) =
        .ok (l.map (fun r =>
        ({ api_key := r.key, is_active := r.is_active,
           never_expire := r.never_expire, account_name := r.account_name,
           expiration_date := r.expiration_date,
           latest_query_date := r.latest_query_date,
           total_queries := r.total_queries } : UsageLog))) := by
    intro l
    induction l with
    | nil => rfl
    | cons r rest ih => simp [build_logs, mkUsageLog, ih]
  simp [get_api_key_usage_logs, get_usage_stats, key]

/-- Pydantic validation of one raw row succeeds exactly when all six
required fields are present; `latest_query_date` is unconstrained. -/
theorem mkUsageLog_ok_iff (row : RawRow) :
    (∃ l, mkUsageLog row = .ok l) ↔ required_fields_present row = true := by
  obtain ⟨k, a, ne, an, ed, lq, tq⟩ := row
  cases k <;> cases a <;> cases ne <;> cases an <;> cases ed <;> cases tq <;>
    simp [mkUsageLog, required_fields_present]

/-- Building the usage report succeeds exactly when every raw row has every
required field present. -/
theorem build_logs_ok_iff (rows : List RawRow) :
    (∃ logs, build_logs rows = .ok logs) ↔
      rows.all required_fields_present = true := by
  induction rows with
  | nil => simp [build_logs]
  | cons row rest ih =>
    constructor
    · rintro ⟨logs, h⟩
      simp only [build_logs] at h
      cases hrow : mkUsageLog row with
      | error e => rw [hrow] at h; cases h
      | ok l =>
        rw [hrow] at h
        cases hrest : build_logs rest with
        | error e => rw [hrest] at h; cases h
        | ok ls =>
          rw [List.all_cons, Bool.and_eq_true]
          exact ⟨(mkUsageLog_ok_iff row).1 ⟨l, hrow⟩, ih.1 ⟨ls, hrest⟩⟩
    · intro h
      rw [List.all_cons, Bool.and_eq_true] at h
      obtain ⟨l, hl⟩ := (mkUsageLog_ok_iff row).2 h.1
      obtain ⟨ls, hls⟩ := ih.2 h.2
      exact ⟨l :: ls, by simp only [build_logs, hl, hls]⟩

/-- C9: in the usage report, `latest_query_date` is the only nullable field:
report construction succeeds exactly when every raw row carries non-null
`api_key`, `is_active`, `never_expire`, `account_name`, `expiration_date`
and `total_queries` values, and a row with a null `expiration_date` (a
never-expiring key included) makes the whole report fail. -/
theorem latest_query_date_only_nullable_field (rows : List RawRow) :
    ((∃ logs, build_logs rows = .ok logs) ↔
      rows.all required_fields_present = true) ∧
    (∀ row : RawRow, row ∈ rows → row.expiration_date = none →
      ∃ e, build_logs rows = .error e) := by
  refine ⟨build_logs_ok_iff rows, ?_⟩
  intro row hrow hed
  cases hb : build_logs rows with
  | error e => exact ⟨e, rfl⟩
  | ok logs =>
    exfalso
    have hall := (build_logs_ok_iff rows).1 ⟨logs, hb⟩
    rw [List.all_eq_true] at hall
    have hreq := hall row hrow
    simp [required_fields_present, hed] at hreq

/-- Witness for C9: a concrete never-expiring row with a null
`expiration_date` makes the report construction fail. -/
theorem latest_query_date_only_nullable_field_witness :
    ∃ e, build_logs
      [{ api_key := some "kk", is_active := some true, never_expire := some true,
         account_name := some "acme", expiration_date := none,
         latest_query_date := none, total_queries := some 0 }] = .error e :=
  (latest_query_date_only_nullable_field
      [{ api_key := some "kk", is_active := some true, never_expire := some true,
         account_name := some "acme", expiration_date := none,
         latest_query_date := none, total_queries := some 0 }]).2
    { api_key := some "kk", is_active := some true, never_expire := some true,
      account_name := some "acme", expiration_date := none,
      latest_query_date := none, total_queries := some 0 }
    (by simp) rfl

/-- C5: renewing an existing key reactivates it (whatever its prior active
flag, a revoked key included) and overwrites its expiration date with the
supplied date, or with the freshly computed default expiration when the
date is omitted; all other fields and records are untouched. -/
theorem renew_reactivates_and_overwrites_expiration
    (s : StoreState) (api_key : String) (expiration_date : Option String)
    (now : IsoDate)
    (hexists : key_exists s api_key = true)
    (hvalid : valid_opt_date expiration_date = true) :
    renew_key s api_key expiration_date now =
      .ok { s with records := s.records.map (fun r =>
        if r.key = api_key then
          { r with is_active := true,
                   expiration_date :=
                     expiration_date.getD (default_expiration now) }
        else r) } ∧
    ∀ s2, renew_key s api_key expiration_date now = .ok s2 →
      ∀ r ∈ s2.records, r.key = api_key →
        r.is_active = true ∧
        r.expiration_date = expiration_date.getD (default_expiration now) := by
  have h1 : renew_key s api_key expiration_date now =
      .ok { s with records := s.records.map (fun r =>
        if r.key = api_key then
          { r with is_active := true,
                   expiration_date :=
                     expiration_date.getD (default_expiration now) }
        else r) } := by
    simp [renew_key, hvalid, hexists]
  refine ⟨h1, ?_⟩
  intro s2 h r hr hk
  rw [h1] at h
  injection h with h
  subst h
  simp only [List.mem_map] at hr
  obtain ⟨x, hx, rfl⟩ := hr
  by_cases hxk : x.key = api_key
  · simp [hxk]
  · simp only [if_neg hxk] at hk ⊢
    exact absurd hk hxk

/-- Witness for C5: renewing a concrete revoked key with a concrete date
reactivates it and installs that date. -/
theorem renew_reactivates_and_overwrites_expiration_witness :
    renew_key
        { records := [{ key := "kk", is_active := false, never_expire := false,
                        account_name := "acme", expiration_date := "2020-01-01",
                        latest_query_date := none, total_queries := 3 }],
          nextNonce := 5 }
        "kk" (some "2099-01-01") { year := 2026, month := 1, day := 1 } =
      .ok { records := [{ key := "kk", is_active := true, never_expire := false,
                          account_name := "acme",
                          expiration_date := "2099-01-01",
                          latest_query_date := none, total_queries := 3 }],
            nextNonce := 5 } := by
  have h := (renew_reactivates_and_overwrites_expiration
      { records := [{ key := "kk", is_active := false, never_expire := false,
                      account_name := "acme", expiration_date := "2020-01-01",
                      latest_query_date := none, total_queries := 3 }],
        nextNonce := 5 }
      "kk" (some "2099-01-01") { year := 2026, month := 1, day := 1 }
      (by decide) (by decide)).1
  exact h.trans rfl

/-- C7: the renew operation's error paths mutate nothing: a malformed
expiration date is rejected with a validation error and an unknown key with
a not-found signal, and in both cases the request leaves the store state
exactly as it was. -/
theorem renew_error_paths_no_mutation
    (secret : String) (now : IsoDate) (api_key : String) (s : StoreState) :
    (∀ d : String, is_valid_iso_date d = false →
      renew_key s api_key (some d) now = .error .validationError ∧
      handle_request secret (some secret) now (.renewReq api_key (some d)) s =
        (.failure .validationError, s)) ∧
    (∀ dopt : Option String, valid_opt_date dopt = true →
      key_exists s api_key = false →
      renew_key s api_key dopt now = .error .notFound ∧
      handle_request secret (some secret) now (.renewReq api_key dopt) s =
        (.failure .notFound, s)) := by
  have hgate : secret_based_security secret (some secret) = true := by
    simp [secret_based_security]
  constructor
  · intro d hbad
    have hr : renew_key s api_key (some d) now = .error .validationError := by
      simp [renew_key, valid_opt_date, hbad]
    exact ⟨hr, by simp [handle_request, hgate, renew_api_key, hr]⟩
  · intro dopt hdok hunknown
    have hr : renew_key s api_key dopt now = .error .notFound := by
      simp [renew_key, hdok, hunknown]
    exact ⟨hr, by simp [handle_request, hgate, renew_api_key, hr]⟩

/-- Witness for C7: on a concrete empty store, a malformed date yields a
validation error and an unknown key a not-found signal, each leaving the
store unchanged. -/
theorem renew_error_paths_no_mutation_witness :
    handle_request "s3cret" (some "s3cret") { year := 2026, month := 1, day := 1 }
        (.renewReq "z" (some "oops")) { records := [], nextNonce := 0 } =
      (.failure .validationError, { records := [], nextNonce := 0 }) ∧
    renew_key { records := [], nextNonce := 0 } "z" none
        { year := 2026, month := 1, day := 1 } = .error .notFound :=
  ⟨((renew_error_paths_no_mutation "s3cret" { year := 2026, month := 1, day := 1 }
      "z" { records := [], nextNonce := 0 }).1 "oops" (by decide)).2,
   ((renew_error_paths_no_mutation "s3cret" { year := 2026, month := 1, day := 1 }
      "z" { records := [], nextNonce := 0 }).2 none (by decide) (by decide)).1⟩

/-- Distinct nonces produce distinct opaque tokens. -/
theorem gen_key_injective {a b : Nat} (h : gen_key a = gen_key b) : a = b := by
  unfold gen_key at h
  have h2 : List.replicate (a + 1) 'k' = List.replicate (b + 1) 'k' := by
    injection h
  have h3 := congrArg List.length h2
  simp only [List.length_replicate] at h3
  omega

/-- Creating a key preserves the store invariant: the fresh key is generated
at the next free nonce, so it collides with no stored key. -/
theorem store_inv_create (s : StoreState) (ne : Bool) (an : String)
    (now : IsoDate) (h : store_inv s) :
    store_inv (create_key s ne an now).2 := by
  obtain ⟨hnd, hkeys⟩ := h
  constructor
  · unfold keys_unique at hnd ⊢
    simp only [create_key, List.map_append, List.map_cons, List.map_nil]
    rw [List.nodup_append]
    refine ⟨hnd, List.nodup_singleton _, ?_⟩
    intro a ha hb
    simp only [List.mem_singleton] at hb
    simp only [List.mem_map] at ha
    obtain ⟨r, hr, hkey⟩ := ha
    obtain ⟨m, hm, hgen⟩ := hkeys r hr
    subst hb
    rw [hgen] at hkey
    have := gen_key_injective hkey
    omega
  · intro r hr
    simp only [create_key, List.mem_append, List.mem_singleton] at hr
    rcases hr with hr | hr
    · obtain ⟨m, hm, hgen⟩ := hkeys r hr
      exact ⟨m, by simp [create_key]; omega, hgen⟩
    · subst hr
      exact ⟨s.nextNonce, by simp [create_key], rfl⟩

/-- Revoking changes no key field, so key uniqueness is untouched. -/
theorem keys_unique_revoke (s : StoreState) (api_key : String)
    (h : keys_unique s) : keys_unique (revoke_key s api_key) := by
  unfold keys_unique at h ⊢
  simp only [revoke_key, List.map_map]
  have hf : ((fun r : ApiKeyRecord => r.key) ∘ (fun r : ApiKeyRecord =>
      if r.key = api_key then { r with is_active := false } else r)) =
      (fun r : ApiKeyRecord => r.key) := by
    funext r
    by_cases hk : r.key = api_key <;> simp [Function.comp, hk]
  rw [hf]
  exact h

/-- A successful renew changes no key field, so key uniqueness is
untouched. -/
theorem keys_unique_renew (s : StoreState) (api_key : String)
    (d : Option String) (now : IsoDate) (s2 : StoreState)
    (hok : renew_key s api_key d now = .ok s2)
    (h : keys_unique s) : keys_unique s2 := by
  unfold renew_key at hok
  by_cases hv : valid_opt_date d = true
  · by_cases he : key_exists s api_key = true
    · rw [if_pos hv, if_pos he] at hok
      injection hok with hok
      subst hok
      unfold keys_unique at h ⊢
      simp only [List.map_map]
      have hf : ((fun r : ApiKeyRecord => r.key) ∘ (fun r : ApiKeyRecord =>
          if r.key = api_key then
            { r with is_active := true,
                     expiration_date := d.getD (default_expiration now) }
          else r)) = (fun r : ApiKeyRecord => r.key) := by
        funext r
        by_cases hk : r.key = api_key <;> simp [Function.comp, hk]
      rw [hf]
      exact h
    · rw [if_pos hv, if_neg he] at hok
      cases hok
  · rw [if_neg hv] at hok
    cases hok

/-- Running a sequence of create calls: the nonce advances by one per call,
every returned key is generated at a nonce in the consumed window, the
returned keys are pairwise distinct, and the store invariant is
preserved. -/
theorem run_creates_spec (calls : List (Bool × String × IsoDate))
    (s : StoreState) :
    (run_creates s calls).2.nextNonce = s.nextNonce + calls.length ∧
    (∀ k ∈ (run_creates s calls).1, ∃ m, s.nextNonce ≤ m ∧
        m < s.nextNonce + calls.length ∧ k = gen_key m) ∧
    (run_creates s calls).1.Nodup ∧
    (store_inv s → store_inv (run_creates s calls).2) := by
  induction calls generalizing s with
  | nil =>
    refine ⟨rfl, ?_, List.nodup_nil, fun h => h⟩
    intro k hk
    cases hk
  | cons c cs ih =>
    obtain ⟨ihn, ihmem, ihnd, ihinv⟩ := ih (create_key s c.1 c.2.1 c.2.2).2
    have hnonce : (create_key s c.1 c.2.1 c.2.2).2.nextNonce =
        s.nextNonce + 1 := rfl
    refine ⟨?_, ?_, ?_, ?_⟩
    · show (run_creates (create_key s c.1 c.2.1 c.2.2).2 cs).2.nextNonce = _
      rw [ihn, hnonce, List.length_cons]
      omega
    · intro k hk
      have hk2 : k = gen_key s.nextNonce ∨
          k ∈ (run_creates (create_key s c.1 c.2.1 c.2.2).2 cs).1 :=
        List.mem_cons.1 hk
      rcases hk2 with hk2 | hk2
      · exact ⟨s.nextNonce, le_refl _, by rw [List.length_cons]; omega, hk2⟩
      · obtain ⟨m, hm1, hm2, hm3⟩ := ihmem k hk2
        rw [hnonce] at hm1 hm2
        exact ⟨m, by omega, by rw [List.length_cons]; omega, hm3⟩
    · show (gen_key s.nextNonce ::
          (run_creates (create_key s c.1 c.2.1 c.2.2).2 cs).1).Nodup
      rw [List.nodup_cons]
      refine ⟨?_, ihnd⟩
      intro hmem
      obtain ⟨m, hm1, hm2, hm3⟩ := ihmem _ hmem
      rw [hnonce] at hm1
      have : s.nextNonce = m := gen_key_injective hm3
      omega
    · intro hinv
      exact ihinv (store_inv_create s c.1 c.2.1 c.2.2 hinv)

/-- C4: from any store satisfying the uniqueness invariant, every finite
sequence of create calls returns pairwise distinct key strings, and key
uniqueness across all stored records is preserved by create, revoke and
renew, so it holds for the lifetime of the store. -/
theorem created_keys_pairwise_distinct_and_store_keys_unique
    (s : StoreState) (calls : List (Bool × String × IsoDate))
    (api_key : String) (d : Option String) (now : IsoDate)
    (hinv : store_inv s) :
    (run_creates s calls).1.Nodup ∧
    store_inv (run_creates s calls).2 ∧
    keys_unique (revoke_key s api_key) ∧
    (∀ s2, renew_key s api_key d now = .ok s2 → keys_unique s2) := by
  obtain ⟨-, -, hnd, hpres⟩ := run_creates_spec calls s
  exact ⟨hnd, hpres hinv, keys_unique_revoke s api_key hinv.1,
    fun s2 hok => keys_unique_renew s api_key d now s2 hok hinv.1⟩

/-- Witness for C4: from the empty store, two concrete create calls return
distinct keys and the store invariant still holds. -/
theorem created_keys_pairwise_distinct_and_store_keys_unique_witness :
    (run_creates { records := [], nextNonce := 0 }
      [(false, "acme", { year := 2026, month := 1, day := 1 }),
       (true, "globex", { year := 2026, month := 1, day := 2 })]).1.Nodup :=
  (created_keys_pairwise_distinct_and_store_keys_unique
    { records := [], nextNonce := 0 }
    [(false, "acme", { year := 2026, month := 1, day := 1 }),
     (true, "globex", { year := 2026, month := 1, day := 2 })]
    "kk" none { year := 2026, month := 1, day := 3 }
    ⟨by simp [keys_unique], by simp⟩).1

end FastapiSimpleSecurity
